import Mathlib

/-!
# Verification of the teletask-node protocol core

Shallow embedding of the TELETASK DoIP client's protocol core
(`src/index.ts` together with the payload decoder modules) and proofs of
the specification's claims about it.

Conventions:
* Buffers of bytes are modelled as `List ℕ`; every write into a JS
  `Buffer` truncates its value with `% 256` (JS `ToUint8`), which the
  embedding performs explicitly where the source performs it.
* JS `Map` objects are modelled as association lists (`mapGet`,
  `mapSet`, `mapDelete`) with JS `Map` get/set/delete semantics;
  JS `Set` objects as duplicate-free lists (`setAdd`, `setDelete`).
* Functions that `throw` in the source return `Except String _` or
  `Option _` here, with `error`/`none` marking the thrown path.
-/

namespace Teletask

/-! ## Association-list model of JS `Map`, and JS `Set` operations -/

/-- JS `Map.prototype.get`: the value stored under `k`, if any. -/
def mapGet {α β : Type} [DecidableEq α] : List (α × β) → α → Option β
  | [], _ => none
  | (k, v) :: t, k' => if k = k' then some v else mapGet t k'

/-- JS `Map.prototype.set`: overwrite the entry for `k` in place, or
append a new entry. -/
def mapSet {α β : Type} [DecidableEq α] : List (α × β) → α → β → List (α × β)
  | [], k, v => [(k, v)]
  | (k', v') :: t, k, v => if k' = k then (k, v) :: t else (k', v') :: mapSet t k v

/-- JS `Map.prototype.delete`: remove the entry for `k`. -/
def mapDelete {α β : Type} [DecidableEq α] : List (α × β) → α → List (α × β)
  | [], _ => []
  | (k', v') :: t, k => if k' = k then t else (k', v') :: mapDelete t k

/-- JS `Set.prototype.add`: append unless already present. -/
def setAdd (s : List ℕ) (x : ℕ) : List ℕ :=
  if x ∈ s then s else s ++ [x]

/-- JS `Set.prototype.delete`: remove the element. -/
def setDelete (s : List ℕ) (x : ℕ) : List ℕ :=
  s.filter (· ≠ x)

theorem mapGet_mapSet_self {α β : Type} [DecidableEq α] (m : List (α × β)) (k : α) (v : β) :
    mapGet (mapSet m k v) k = some v := by
  induction m with
  | nil => simp [mapGet, mapSet]
  | cons e t ih =>
    obtain ⟨k', v'⟩ := e
    by_cases h : k' = k <;> simp [mapGet, mapSet, h, ih]

theorem mapGet_mapSet_ne {α β : Type} [DecidableEq α] (m : List (α × β)) (k k' : α) (v : β)
    (h : k' ≠ k) : mapGet (mapSet m k v) k' = mapGet m k' := by
  induction m with
  | nil => simp [mapGet, mapSet, Ne.symm h]
  | cons e t ih =>
    obtain ⟨k'', v''⟩ := e
    by_cases h1 : k'' = k
    · subst h1
      simp [mapGet, mapSet, Ne.symm h]
    · by_cases h2 : k'' = k'
      · simp [mapGet, mapSet, h1, h2, h]
      · simp [mapGet, mapSet, h1, h2, ih]

theorem mapGet_mapDelete_ne {α β : Type} [DecidableEq α] (m : List (α × β)) (k k' : α)
    (h : k' ≠ k) : mapGet (mapDelete m k) k' = mapGet m k' := by
  induction m with
  | nil => simp [mapDelete]
  | cons e t ih =>
    obtain ⟨k'', v''⟩ := e
    by_cases h1 : k'' = k
    · subst h1
      simp [mapGet, mapDelete, Ne.symm h]
    · by_cases h2 : k'' = k'
      · simp [mapGet, mapDelete, h1, h2, h]
      · simp [mapGet, mapDelete, h1, h2, ih]

/-! ## Frame codec (`TeletaskClient.buildCommand`, src/index.ts 154–184) -/

/-- `TeletaskClient.buildCommand`: builds the outbound frame
`[0x02, length, command, ...parameters, checksum]` where
`length = 3 + parameters.length` and the checksum is the sum of the first
`length` bytes masked with `& 0xff`.  `Buffer.from(parameters)` and the
`buffer[i] = x` writes truncate each value to a byte, modelled by `% 256`. -/
def buildCommand (command : ℕ) (parameters : List ℕ) : List ℕ :=
  let paramBuffer := parameters.map (· % 256)
  let length := 3 + paramBuffer.length
  let body := 2 :: (length % 256) :: (command % 256) :: paramBuffer
  body ++ [body.sum % 256]

theorem buildCommand_map_mod (p : List ℕ) (hp : ∀ x ∈ p, x < 256) :
    p.map (· % 256) = p := by
  induction p with
  | nil => rfl
  | cons a t ih =>
    have ha : a < 256 := hp a (by simp)
    simp only [List.map_cons, Nat.mod_eq_of_lt ha, List.cons.injEq, true_and]
    exact ih fun x hx => hp x (by simp [hx])

/-- C1: for every command byte and parameter list of length ≤ 250,
`buildCommand` returns exactly `[0x02, L, c, ...p, K]` with `L = 3 + |p|`,
total length `L + 1`, and `K` the sum of the first `L` bytes mod 256. -/
theorem buildCommand_frame_layout (c : ℕ) (p : List ℕ)
    (hc : c < 256) (hp : ∀ x ∈ p, x < 256) (hlen : p.length ≤ 250) :
    buildCommand c p
        = (2 :: (3 + p.length) :: c :: p) ++ [(2 :: (3 + p.length) :: c :: p).sum % 256]
      ∧ (buildCommand c p).length = (3 + p.length) + 1 := by
  have hL : (3 + p.length) % 256 = 3 + p.length := Nat.mod_eq_of_lt (by omega)
  have hmap := buildCommand_map_mod p hp
  have heq : buildCommand c p
      = (2 :: (3 + p.length) :: c :: p) ++ [(2 :: (3 + p.length) :: c :: p).sum % 256] := by
    simp only [buildCommand, hmap, hL, Nat.mod_eq_of_lt hc]
  refine ⟨heq, ?_⟩
  rw [heq]
  simp only [List.length_append, List.length_cons]
  simp
  omega

/-- Witness for C1 at the GET-relay example frame from the source comments. -/
theorem buildCommand_frame_layout_witness :
    buildCommand 6 [1, 1, 0, 1]
        = (2 :: 7 :: 6 :: [1, 1, 0, 1]) ++ [(2 :: 7 :: 6 :: [1, 1, 0, 1]).sum % 256]
      ∧ (buildCommand 6 [1, 1, 0, 1]).length = 7 + 1 :=
  buildCommand_frame_layout 6 [1, 1, 0, 1] (by decide) (by decide) (by decide)

/-! ## Stream demultiplexer (`TeletaskClient.handleResponse`, src/index.ts 205–249)

`handleResponse` scans the delivered chunk left to right.  The embedding
returns the transcript of the scan: the list of complete frames that were
dispatched (command `0x03` → `handleEvent`, `0x0b` → dropped keep-alive,
`0x10` → `handleGetResponse`), in order, together with
`some command` when the scan aborted by throwing
`Unknown command: ...` (`none` when the scan ran to completion).  A
frame whose command byte is absent (declared length < 2) throws in JS
with `command = undefined`; the embedding reads the missing byte as `0`,
which also lands in the throwing branch.  `handleResponse` keeps no state
across calls, so one call of this pure function per delivered chunk is
the whole behaviour.  The loop index advances by at least one byte per
iteration, so `data.length` is enough fuel. -/

def handleResponseGo : ℕ → List ℕ → List (List ℕ) × Option ℕ
  | _, [] => ([], none)
  | 0, _ :: _ => ([], none)
  | fuel + 1, b :: rest =>
    if b = 10 then handleResponseGo fuel rest
    else if b = 2 then
      if rest = [] then ([], none)
      else
        let len := rest.getD 0 0
        if rest.length < len then ([], none)
        else
          let message := (b :: rest).take (len + 1)
          let command := message.getD 2 0
          if command = 3 ∨ command = 11 ∨ command = 16 then
            let r := handleResponseGo fuel (rest.drop len)
            (message :: r.1, r.2)
          else ([], some command)
    else handleResponseGo fuel rest

/-- `TeletaskClient.handleResponse` on one delivered chunk. -/
def handleResponse (data : List ℕ) : List (List ℕ) × Option ℕ :=
  handleResponseGo data.length data

theorem handleResponseGo_nil (fuel : ℕ) : handleResponseGo fuel [] = ([], none) := by
  cases fuel <;> rfl

theorem handleResponseGo_congr (fuel₁ : ℕ) :
    ∀ (fuel₂ : ℕ) (data : List ℕ), data.length ≤ fuel₁ → data.length ≤ fuel₂ →
      handleResponseGo fuel₁ data = handleResponseGo fuel₂ data := by
  induction fuel₁ with
  | zero =>
    intro fuel₂ data h1 _
    have : data = [] := List.eq_nil_of_length_eq_zero (by omega)
    subst this
    rw [handleResponseGo_nil, handleResponseGo_nil]
  | succ fuel ih =>
    intro fuel₂ data h1 h2
    match data with
    | [] => rw [handleResponseGo_nil, handleResponseGo_nil]
    | b :: rest =>
      match fuel₂ with
      | 0 => simp at h2
      | fuel₂ + 1 =>
        simp only [List.length_cons] at h1 h2
        simp only [handleResponseGo]
        by_cases hb10 : b = 10
        · rw [if_pos hb10, if_pos hb10]
          exact ih fuel₂ rest (by omega) (by omega)
        · rw [if_neg hb10, if_neg hb10]
          by_cases hb2 : b = 2
          · rw [if_pos hb2, if_pos hb2]
            by_cases hrest : rest = []
            · rw [if_pos hrest, if_pos hrest]
            · rw [if_neg hrest, if_neg hrest]
              by_cases hlen : rest.length < rest.getD 0 0
              · rw [if_pos hlen, if_pos hlen]
              · rw [if_neg hlen, if_neg hlen]
                have hd := List.length_drop (rest.getD 0 0) rest
                rw [ih fuel₂ (rest.drop (rest.getD 0 0)) (by omega) (by omega)]
          · rw [if_neg hb2, if_neg hb2]
            exact ih fuel₂ rest (by omega) (by omega)

/-- A structurally well-formed frame: start byte `0x02`, and the declared
length byte consistent with the frame's size (a complete frame is at
least `[STX, LEN, CMD, CK]`). -/
def wellFormedFrame (F : List ℕ) : Prop :=
  4 ≤ F.length ∧ F.getD 0 0 = 2 ∧ F.getD 1 0 + 1 = F.length

instance (F : List ℕ) : Decidable (wellFormedFrame F) := by
  unfold wellFormedFrame
  infer_instance

/-- The command byte at offset 2 is one the demultiplexer dispatches on:
`LOG = 0x03`, `KEEP_ALIVE = 0x0b` or `RESPONSE = 0x10`. -/
def knownCommand (F : List ℕ) : Prop :=
  F.getD 2 0 = 3 ∨ F.getD 2 0 = 11 ∨ F.getD 2 0 = 16

instance (F : List ℕ) : Decidable (knownCommand F) := by
  unfold knownCommand
  infer_instance

theorem exists_frame_shape (F : List ℕ) (hw : wellFormedFrame F) :
    ∃ len cmd F3, F = 2 :: len :: cmd :: F3 ∧ len = F3.length + 2 := by
  obtain ⟨hlen, h0, h1⟩ := hw
  match F with
  | b0 :: b1 :: b2 :: F3 =>
    simp only [List.getD_cons_zero, List.getD_cons_succ] at h0 h1
    subst h0
    exact ⟨b1, b2, F3, rfl, by simp at h1; omega⟩

/-- Scanning a chunk that begins with a complete well-formed frame with a
dispatchable command records that frame and continues with the rest of
the chunk. -/
theorem handleResponse_frame_leading (F tail : List ℕ)
    (hw : wellFormedFrame F) (hc : knownCommand F) :
    handleResponse (F ++ tail)
      = (F :: (handleResponse tail).1, (handleResponse tail).2) := by
  obtain ⟨len, cmd, F3, rfl, hlen⟩ := exists_frame_shape F hw
  have hcmd : cmd = 3 ∨ cmd = 11 ∨ cmd = 16 := by
    simpa [knownCommand] using hc
  have hflen : ((2 :: len :: cmd :: F3) ++ tail).length = (len + tail.length) + 1 := by
    simp only [List.length_append, List.length_cons]
    omega
  have hdata : (2 :: len :: cmd :: F3) ++ tail = 2 :: (len :: cmd :: (F3 ++ tail)) := by
    simp
  have htake : (2 :: len :: cmd :: (F3 ++ tail)).take (len + 1) = 2 :: len :: cmd :: F3 := by
    rw [show 2 :: len :: cmd :: (F3 ++ tail) = (2 :: len :: cmd :: F3) ++ tail from by simp]
    exact List.take_left' (by simp only [List.length_cons]; omega)
  have hdrop : (len :: cmd :: (F3 ++ tail)).drop len = tail := by
    rw [show len :: cmd :: (F3 ++ tail) = (len :: cmd :: F3) ++ tail from by simp]
    exact List.drop_left' (by simp only [List.length_cons]; omega)
  have c1 : ((2 : ℕ) = 10) = False := by simp
  have c2 : ((2 : ℕ) = 2) = True := by simp
  have c3 : (len :: cmd :: (F3 ++ tail) = []) = False := by simp
  have c4 : ((len :: cmd :: (F3 ++ tail)).length < len) = False := by
    apply eq_false
    simp only [List.length_cons, List.length_append]
    omega
  have c5 : (cmd = 3 ∨ cmd = 11 ∨ cmd = 16) = True := eq_true hcmd
  unfold handleResponse
  rw [hflen, hdata]
  simp only [handleResponseGo, List.getD_cons_zero, List.getD_cons_succ, c1, c2, c3,
    htake, hdrop, c4, c5, if_true, if_false]
  rw [handleResponseGo_congr (len + tail.length) tail.length tail (by omega) (le_refl _)]

/-- A single complete well-formed frame with a dispatchable command is
classified exactly once, with no error. -/
theorem handleResponse_single_frame (F : List ℕ)
    (hw : wellFormedFrame F) (hc : knownCommand F) :
    handleResponse F = ([F], none) := by
  have := handleResponse_frame_leading F [] hw hc
  simpa [handleResponse, handleResponseGo_nil] using this

/-- A truncated trailing frame: a `0x02` start byte whose declared frame
size (`length byte + 1`) exceeds the bytes remaining in the delivery. -/
def truncatedFrame (T : List ℕ) : Prop :=
  T.getD 0 0 = 2 ∧ 2 ≤ T.length ∧ T.length < T.getD 1 0 + 1

instance (T : List ℕ) : Decidable (truncatedFrame T) := by
  unfold truncatedFrame
  infer_instance

/-- Reaching a truncated trailing frame stops the scan with no event and
no error. -/
theorem handleResponse_truncated (T : List ℕ) (ht : truncatedFrame T) :
    handleResponse T = ([], none) := by
  obtain ⟨h0, h2, hshort⟩ := ht
  match T with
  | b0 :: b1 :: r =>
    simp only [List.getD_cons_zero, List.getD_cons_succ, List.length_cons] at h0 hshort
    subst h0
    have c1 : ((2 : ℕ) = 10) = False := by simp
    have c2 : ((2 : ℕ) = 2) = True := by simp
    have c3 : (b1 :: r = []) = False := by simp
    have c4 : ((b1 :: r).length < b1) = True := by
      apply eq_true
      simp only [List.length_cons]
      omega
    unfold handleResponse
    rw [show (2 :: b1 :: r).length = (r.length + 1) + 1 from by simp]
    simp only [handleResponseGo, List.getD_cons_zero, c1, c2, c3, c4, if_true, if_false]

/-- Scanning a complete well-formed frame whose command byte is not one
of LOG/KEEP_ALIVE/RESPONSE throws (`Unknown command`), aborting the scan:
nothing after it in the delivery is processed. -/
theorem handleResponse_bad_frame (B rest : List ℕ)
    (hw : wellFormedFrame B) (hbad : ¬ knownCommand B) :
    handleResponse (B ++ rest) = ([], some (B.getD 2 0)) := by
  obtain ⟨len, cmd, F3, rfl, hlen⟩ := exists_frame_shape B hw
  have hcmd : ¬ (cmd = 3 ∨ cmd = 11 ∨ cmd = 16) := by
    simpa [knownCommand] using hbad
  have hflen : ((2 :: len :: cmd :: F3) ++ rest).length = (len + rest.length) + 1 := by
    simp only [List.length_append, List.length_cons]
    omega
  have hdata : (2 :: len :: cmd :: F3) ++ rest = 2 :: (len :: cmd :: (F3 ++ rest)) := by
    simp
  have htake : (2 :: len :: cmd :: (F3 ++ rest)).take (len + 1) = 2 :: len :: cmd :: F3 := by
    rw [show 2 :: len :: cmd :: (F3 ++ rest) = (2 :: len :: cmd :: F3) ++ rest from by simp]
    exact List.take_left' (by simp only [List.length_cons]; omega)
  have c1 : ((2 : ℕ) = 10) = False := by simp
  have c2 : ((2 : ℕ) = 2) = True := by simp
  have c3 : (len :: cmd :: (F3 ++ rest) = []) = False := by simp
  have c4 : ((len :: cmd :: (F3 ++ rest)).length < len) = False := by
    apply eq_false
    simp only [List.length_cons, List.length_append]
    omega
  have c5 : (cmd = 3 ∨ cmd = 11 ∨ cmd = 16) = False := eq_false hcmd
  unfold handleResponse
  rw [hflen, hdata]
  simp only [handleResponseGo, List.getD_cons_zero, List.getD_cons_succ, c1, c2, c3,
    htake, c4, c5, if_true, if_false]

/-- C2 (amended): two well-formed frames with dispatchable commands,
concatenated into one delivery, are classified exactly twice and in
order; a truncated trailing frame stops the scan with no event for it;
and — `handleResponse` carrying no state between calls — the next
delivery is processed from scratch, unaffected. -/
theorem handleResponse_concatenation (F1 F2 T : List ℕ)
    (h1 : wellFormedFrame F1) (h1c : knownCommand F1)
    (h2 : wellFormedFrame F2) (h2c : knownCommand F2)
    (ht : truncatedFrame T) :
    handleResponse (F1 ++ F2) = ([F1, F2], none)
  ∧ handleResponse (F1 ++ T) = ([F1], none)
  ∧ handleResponse T = ([], none)
  ∧ handleResponse F2 = ([F2], none) := by
  refine ⟨?_, ?_, handleResponse_truncated T ht, handleResponse_single_frame F2 h2 h2c⟩
  · rw [handleResponse_frame_leading F1 F2 h1 h1c, handleResponse_single_frame F2 h2 h2c]
  · rw [handleResponse_frame_leading F1 T h1 h1c, handleResponse_truncated T ht]

/-- C2 counterexample: both frames are well-formed in the claim's sense
(start `0x02`, consistent length byte), yet the delivery `F1 ++ F2`
classifies zero frames — the scan throws on `F1`'s unrecognized command
byte `0x55` and never reaches `F2`. -/
theorem handleResponse_concatenation_counterexample :
    wellFormedFrame [2, 3, 85, 90]
  ∧ wellFormedFrame [2, 3, 3, 8]
  ∧ (handleResponse ([2, 3, 85, 90] ++ [2, 3, 3, 8])).1 = [] := by
  decide

/-- Witness for C2 (amended) at a LOG frame, a RESPONSE frame and a
truncated frame. -/
theorem handleResponse_concatenation_witness :
    handleResponse ([2, 4, 3, 1, 10] ++ [2, 3, 16, 21]) = ([[2, 4, 3, 1, 10], [2, 3, 16, 21]], none)
  ∧ handleResponse ([2, 4, 3, 1, 10] ++ [2, 9, 16, 1]) = ([[2, 4, 3, 1, 10]], none)
  ∧ handleResponse [2, 9, 16, 1] = ([], none)
  ∧ handleResponse [2, 3, 16, 21] = ([[2, 3, 16, 21]], none) :=
  handleResponse_concatenation [2, 4, 3, 1, 10] [2, 3, 16, 21] [2, 9, 16, 1]
    (by decide) (by decide) (by decide) (by decide) (by decide)

/-- C5 (amended): a complete frame with an unrecognized command byte is
reported by throwing `Unknown command` (not silently dropped); frames
already classified earlier in the delivery stand, but the throw aborts
the scan, so frames after the bad frame in the same delivery are not
processed. -/
theorem handleResponse_unknown_command (F B rest : List ℕ)
    (hF : wellFormedFrame F) (hFc : knownCommand F)
    (hB : wellFormedFrame B) (hbad : ¬ knownCommand B) :
    handleResponse (B ++ rest) = ([], some (B.getD 2 0))
  ∧ handleResponse (F ++ (B ++ rest)) = ([F], some (B.getD 2 0)) := by
  refine ⟨handleResponse_bad_frame B rest hB hbad, ?_⟩
  rw [handleResponse_frame_leading F _ hF hFc, handleResponse_bad_frame B rest hB hbad]

/-- C5 counterexample: a well-formed frame follows the bad frame
(command `0x07`, a valid outbound SET command but not a receivable one)
in the same delivery, yet nothing at all is classified: the following
frame's processing is not "unaffected". -/
theorem handleResponse_unknown_command_counterexample :
    wellFormedFrame [2, 4, 7, 1, 14]
  ∧ wellFormedFrame [2, 3, 11, 16]
  ∧ handleResponse ([2, 4, 7, 1, 14] ++ [2, 3, 11, 16]) = ([], some 7) := by
  decide

/-- Witness for C5 (amended). -/
theorem handleResponse_unknown_command_witness :
    handleResponse ([2, 3, 100, 205] ++ [2, 3, 3, 8]) = ([], some 100)
  ∧ handleResponse ([2, 4, 16, 0, 22] ++ ([2, 3, 100, 205] ++ [2, 3, 3, 8]))
      = ([[2, 4, 16, 0, 22]], some 100) :=
  handleResponse_unknown_command [2, 4, 16, 0, 22] [2, 3, 100, 205] [2, 3, 3, 8]
    (by decide) (by decide) (by decide) (by decide)

/-- C10: the demultiplexer is a left inverse of the frame builder — a
frame built by `buildCommand` for any receivable command byte, delivered
as one chunk, is classified exactly once, its command byte is `c`, and
the bytes strictly between the command byte and the checksum are exactly
the original parameters. -/
theorem handleResponse_buildCommand_roundtrip (c : ℕ) (p : List ℕ)
    (hc : c = 3 ∨ c = 11 ∨ c = 16) (hp : ∀ x ∈ p, x < 256) (hlen : p.length ≤ 250) :
    handleResponse (buildCommand c p) = ([buildCommand c p], none)
  ∧ (buildCommand c p).getD 2 0 = c
  ∧ ((buildCommand c p).drop 3).dropLast = p := by
  have hc' : c < 256 := by rcases hc with h | h | h <;> omega
  obtain ⟨heq, hlength⟩ := buildCommand_frame_layout c p hc' hp hlen
  have hcons : (2 :: (3 + p.length) :: c :: p) ++ [(2 :: (3 + p.length) :: c :: p).sum % 256]
      = 2 :: (3 + p.length) :: c :: (p ++ [(2 :: (3 + p.length) :: c :: p).sum % 256]) := by
    simp
  have hw : wellFormedFrame (buildCommand c p) := by
    refine ⟨?_, ?_, ?_⟩
    · rw [hlength]; omega
    · rw [heq, hcons]; rfl
    · rw [hlength, heq, hcons]
      simp only [List.getD_cons_succ, List.getD_cons_zero]
  have hk : knownCommand (buildCommand c p) := by
    unfold knownCommand
    rw [heq, hcons]
    simpa only [List.getD_cons_succ, List.getD_cons_zero] using hc
  refine ⟨handleResponse_single_frame _ hw hk, ?_, ?_⟩
  · rw [heq, hcons]
    simp only [List.getD_cons_succ, List.getD_cons_zero]
  · rw [heq, hcons]
    simp only [List.drop_succ_cons, List.drop_zero]
    exact List.dropLast_concat ▸ by simp

/-- Witness for C10 at a RESPONSE frame carrying a relay payload. -/
theorem handleResponse_buildCommand_roundtrip_witness :
    handleResponse (buildCommand 16 [9, 2, 0, 7, 0, 255])
      = ([buildCommand 16 [9, 2, 0, 7, 0, 255]], none)
  ∧ (buildCommand 16 [9, 2, 0, 7, 0, 255]).getD 2 0 = 16
  ∧ ((buildCommand 16 [9, 2, 0, 7, 0, 255]).drop 3).dropLast = [9, 2, 0, 7, 0, 255] :=
  handleResponse_buildCommand_roundtrip 16 [9, 2, 0, 7, 0, 255]
    (by decide) (by decide) (by decide)

/-! ## Request/response correlator
(`TeletaskClient.waitForGet` / `handleGetResponse`, src/index.ts 327–373)

The `responseHandlers` JS `Map` is keyed by the string
`` `${functionType}_${centralUnit}_${number}` ``; since the three decimal
renderings contain no `_`, that string key is in bijection with the
triple, so the map is modelled keyed by
`(functionType, centralUnit, number) : ℕ × ℕ × ℕ` directly.  Waiters
(the resolve continuations) are identified by opaque `ℕ` ids. -/

/-- The payload decoded by `handleGetResponse`
(`response.payload`, `centralUnit`, `functionType`, `number`). -/
structure GetResponseR where
  centralUnit : ℕ
  functionType : ℕ
  number : ℕ
  payload : List ℕ
deriving DecidableEq, Repr

/-- `TeletaskClient.handleGetResponse`: slice the payload, decode the
composite key from payload bytes 0–3, and if a waiter is registered under
that key, resolve it with the response and delete the entry; otherwise
leave the map untouched.  Returns the resolved `(waiter, response)` pair,
if any, together with the updated map.  (A JS read past the end of the
payload yields `undefined`; the embedding reads `0`, which likewise
matches no key registered by the public query methods, whose central
unit is validated into `[1,10]`.) -/
def handleGetResponse (handlers : List ((ℕ × ℕ × ℕ) × ℕ)) (data : List ℕ) :
    Option (ℕ × GetResponseR) × List ((ℕ × ℕ × ℕ) × ℕ) :=
  let payload := (data.drop 3).dropLast
  let centralUnit := payload.getD 0 0
  let functionType := payload.getD 1 0
  let number := (payload.getD 2 0) <<< 8 ||| payload.getD 3 0
  let key := (functionType, centralUnit, number)
  match mapGet handlers key with
  | some h => (some (h, ⟨centralUnit, functionType, number, payload⟩), mapDelete handlers key)
  | none => (none, handlers)

/-- `TeletaskClient.waitForGet`, registration step: the response handler
for `messageId` is installed with `Map.set`, unconditionally — there is
no error path and no check for an existing entry. -/
def waitForGetRegister (handlers : List ((ℕ × ℕ × ℕ) × ℕ)) (messageId : ℕ × ℕ × ℕ)
    (waiter : ℕ) : List ((ℕ × ℕ × ℕ) × ℕ) :=
  mapSet handlers messageId waiter

/-- C3: a RESPONSE frame whose payload decodes to the composite key
`(f, c, n)` resolves exactly the waiter pending under that key with the
frame's payload, removes it from the map, and leaves every waiter under
any other key pending and unchanged. -/
theorem handleGetResponse_resolves_matching (pending : List ((ℕ × ℕ × ℕ) × ℕ))
    (f c n w : ℕ) (data : List ℕ)
    (hw : mapGet pending (f, c, n) = some w)
    (hc : ((data.drop 3).dropLast).getD 0 0 = c)
    (hf : ((data.drop 3).dropLast).getD 1 0 = f)
    (hn : (((data.drop 3).dropLast).getD 2 0) <<< 8 ||| ((data.drop 3).dropLast).getD 3 0 = n) :
    (handleGetResponse pending data).1 = some (w, ⟨c, f, n, (data.drop 3).dropLast⟩)
  ∧ (handleGetResponse pending data).2 = mapDelete pending (f, c, n)
  ∧ ∀ k' : ℕ × ℕ × ℕ, k' ≠ (f, c, n) →
      mapGet (handleGetResponse pending data).2 k' = mapGet pending k' := by
  simp only [handleGetResponse]
  rw [hc, hf, hn, hw]
  exact ⟨rfl, rfl, fun k' hk' => mapGet_mapDelete_ne pending (f, c, n) k' hk'⟩

/-- Witness for C3: a relay RESPONSE for key `(1, 1, 5)` resolves waiter 7
and leaves the waiter for `(2, 1, 5)` pending. -/
theorem handleGetResponse_resolves_matching_witness :
    (handleGetResponse [((1, 1, 5), 7), ((2, 1, 5), 8)] [2, 9, 16, 1, 1, 0, 5, 0, 255, 29]).1
        = some (7, ⟨1, 1, 5, [1, 1, 0, 5, 0, 255]⟩)
  ∧ mapGet (handleGetResponse [((1, 1, 5), 7), ((2, 1, 5), 8)]
        [2, 9, 16, 1, 1, 0, 5, 0, 255, 29]).2 (2, 1, 5) = some 8 := by
  have h := handleGetResponse_resolves_matching [((1, 1, 5), 7), ((2, 1, 5), 8)]
    1 1 5 7 [2, 9, 16, 1, 1, 0, 5, 0, 255, 29] (by decide) (by decide) (by decide) (by decide)
  refine ⟨h.1, ?_⟩
  rw [h.2.2 (2, 1, 5) (by decide)]
  decide

/-- C4 (code evaluation at the failing input): registering a second
waiter under the composite key `(1, 1, 5)` while waiter 0 is still
pending silently overwrites the map entry — the map afterwards holds
only waiter 1, `waitForGetRegister` signals nothing to anyone, and a
matching RESPONSE then resolves waiter 1 while waiter 0's resolve
continuation has become unreachable. -/
theorem waitForGetRegister_clobbers :
    waitForGetRegister (waitForGetRegister [] (1, 1, 5) 0) (1, 1, 5) 1 = [((1, 1, 5), 1)]
  ∧ (handleGetResponse (waitForGetRegister (waitForGetRegister [] (1, 1, 5) 0) (1, 1, 5) 1)
        [2, 9, 16, 1, 1, 0, 5, 0, 255, 29]).1
      = some (1, ⟨1, 1, 5, [1, 1, 0, 5, 0, 255]⟩) := by
  decide

/-! ## Event subscription manager
(`TeletaskClient.subscribe` / `unsubscribe` / `functionTypeLogging`,
src/index.ts 274–322)

The client state carries the `subscribers` map (functionType → JS `Set`
of callbacks, callbacks modelled by `ℕ` identities) and the
`functionTypeLoggers` map.  Each operation returns `none` where the
source throws, and otherwise the new state together with the list of
frames it sent (built by `buildCommand`); the connected-and-sending path
of `sendCommand` is assumed. -/

/-- `Object.values(FunctionType)` (src/types/teletask.ts). -/
def functionTypeValues : List ℕ :=
  [1, 2, 6, 8, 9, 10, 15, 20, 31, 3, 14, 53, 54, 60, 52]

structure ClientState where
  subscribers : List (ℕ × List ℕ)
  loggers : List (ℕ × Bool)
deriving DecidableEq, Repr

/-- `TeletaskClient.functionTypeLogging`: validate the function type,
send `LOG (0x03)` with `[functionType, 0xff | 0x00]`, and record the new
logging state. -/
def functionTypeLogging (s : ClientState) (ft : ℕ) (enabled : Bool) :
    Option (ClientState × List (List ℕ)) :=
  if ft ∈ functionTypeValues then
    some (⟨s.subscribers, mapSet s.loggers ft enabled⟩,
      [buildCommand 3 [ft, if enabled then 255 else 0]])
  else none

/-- `TeletaskClient.subscribe`: validate the function type, ensure the
subscriber set exists, add the callback, and enable logging iff the
logger map does not hold `true` for this function type
(JS `!this.functionTypeLoggers.get(functionType)` — `undefined` or
`false`). -/
def subscribe (s : ClientState) (ft cb : ℕ) : Option (ClientState × List (List ℕ)) :=
  if ft ∈ functionTypeValues then
    let subs := (mapGet s.subscribers ft).getD []
    let s1 : ClientState := ⟨mapSet s.subscribers ft (setAdd subs cb), s.loggers⟩
    if (mapGet s.loggers ft).getD false = false then functionTypeLogging s1 ft true
    else some (s1, [])
  else none

/-- `TeletaskClient.unsubscribe`: if a subscriber set exists for the
function type, delete the callback, and disable logging when the set
becomes empty. -/
def unsubscribe (s : ClientState) (ft cb : ℕ) : Option (ClientState × List (List ℕ)) :=
  match mapGet s.subscribers ft with
  | none => some (s, [])
  | some subs =>
    let subs' := setDelete subs cb
    let s1 : ClientState := ⟨mapSet s.subscribers ft subs', s.loggers⟩
    if subs'.length = 0 then functionTypeLogging s1 ft false
    else some (s1, [])

/-- The claim's scenario: subscribe two callbacks to one function type,
then unsubscribe both; collect the four lists of frames sent. -/
def subscribeScenario (s : ClientState) (ft cb1 cb2 : ℕ) :
    Option (List (List ℕ) × List (List ℕ) × List (List ℕ) × List (List ℕ)) :=
  (subscribe s ft cb1).bind fun r1 =>
  (subscribe r1.1 ft cb2).bind fun r2 =>
  (unsubscribe r2.1 ft cb1).bind fun r3 =>
  (unsubscribe r3.1 ft cb2).map fun r4 => (r1.2, r2.2, r3.2, r4.2)

/-- C7: starting with no subscribers for `ft` (and logging not on),
subscribing two different callbacks sends exactly one LOG-enable frame
(on the first subscribe, none on the second), and unsubscribing both
sends exactly one LOG-disable frame, at the second removal. -/
theorem subscribeScenario_sends (s : ClientState) (ft cb1 cb2 : ℕ)
    (hft : ft ∈ functionTypeValues) (hne : cb1 ≠ cb2)
    (hsub : mapGet s.subscribers ft = none)
    (hlog : (mapGet s.loggers ft).getD false = false) :
    subscribeScenario s ft cb1 cb2
      = some ([buildCommand 3 [ft, 255]], [], [], [buildCommand 3 [ft, 0]]) := by
  have hone : subscribe s ft cb1
      = some (⟨mapSet s.subscribers ft [cb1], mapSet s.loggers ft true⟩,
          [buildCommand 3 [ft, 255]]) := by
    simp only [subscribe, functionTypeLogging, if_pos hft, hsub, hlog, if_pos rfl]
    rfl
  have htwo : subscribe ⟨mapSet s.subscribers ft [cb1], mapSet s.loggers ft true⟩ ft cb2
      = some (⟨mapSet (mapSet s.subscribers ft [cb1]) ft [cb1, cb2],
          mapSet s.loggers ft true⟩, []) := by
    simp only [subscribe, if_pos hft, mapGet_mapSet_self, Option.getD_some]
    rw [if_neg (by simp)]
    simp only [setAdd, List.mem_singleton]
    rw [if_neg (Ne.symm hne)]
    rfl
  have hdel1 : setDelete [cb1, cb2] cb1 = [cb2] := by
    simp [setDelete, Ne.symm hne]
  have hdel2 : setDelete [cb2] cb2 = [] := by
    simp [setDelete]
  have hthree : unsubscribe ⟨mapSet (mapSet s.subscribers ft [cb1]) ft [cb1, cb2],
        mapSet s.loggers ft true⟩ ft cb1
      = some (⟨mapSet (mapSet (mapSet s.subscribers ft [cb1]) ft [cb1, cb2]) ft [cb2],
          mapSet s.loggers ft true⟩, []) := by
    simp only [unsubscribe, mapGet_mapSet_self, hdel1]
    rw [if_neg (by simp)]
  have hfour : unsubscribe ⟨mapSet (mapSet (mapSet s.subscribers ft [cb1]) ft [cb1, cb2]) ft [cb2],
        mapSet s.loggers ft true⟩ ft cb2
      = some (⟨mapSet (mapSet (mapSet (mapSet s.subscribers ft [cb1]) ft [cb1, cb2]) ft [cb2]) ft [],
          mapSet (mapSet s.loggers ft true) ft false⟩, [buildCommand 3 [ft, 0]]) := by
    simp only [unsubscribe, mapGet_mapSet_self, hdel2]
    rw [if_pos (show List.length ([] : List ℕ) = 0 from rfl)]
    simp only [functionTypeLogging, if_pos hft]
    rfl
  simp only [subscribeScenario, hone, htwo, hthree, hfour, Option.bind, Option.map]

/-- Witness for C7: two callbacks on the relay function type from the
empty client state. -/
theorem subscribeScenario_sends_witness :
    subscribeScenario ⟨[], []⟩ 1 0 1
      = some ([buildCommand 3 [1, 255]], [], [], [buildCommand 3 [1, 0]]) :=
  subscribeScenario_sends ⟨[], []⟩ 1 0 1 (by decide) (by decide) rfl rfl

/-! ## Motor payload decoder (`parseMotorResponse`, src/lib/response/motor.ts —
the decoder `queryMotor` uses) -/

inductive MotorDirectionT where
  | up
  | down
  | stopped
deriving DecidableEq, Repr

/-- The decoded motor state.  `timeToFinish` is kept in raw centiseconds
(the source divides by 100 into a float; no claim concerns that field);
`protection` is the numeric `MotorProtectionState` enum value (0–4),
which determines the state name the source stores. -/
structure MotorStateR where
  moving : Bool
  direction : MotorDirectionT
  position : ℕ
  targetPosition : ℕ
  protection : ℕ
  controlled : Bool
  timeToFinishCentiseconds : ℕ
  correctionAtZeroPercent : ℕ
  correctionAtHundredPercent : ℕ
deriving DecidableEq, Repr

/-- `parseMotorResponse` (src/lib/response/motor.ts): requires a payload
of at least 14 bytes; throws when the target position (byte 8) or current
position (byte 9) exceeds 100; maps direction byte 1 → up, 2 → down,
anything else → stopped; and throws when the protection byte (byte 7) is
outside the `MotorProtectionState` enumeration 0–4 (the double reverse
lookup `MotorProtectionState[MotorProtectionState[protection]]` is
`undefined` exactly then). -/
def parseMotorResponse (payload : List ℕ) : Except String MotorStateR :=
  if payload.length < 14 then .error "Invalid motor response: insufficient data"
  else
    let direction := payload.getD 5 0
    let power := payload.getD 6 0
    let protection := payload.getD 7 0
    let position := payload.getD 8 0
    let currentPosition := payload.getD 9 0
    let timeToFinish := (payload.getD 10 0) <<< 8 ||| payload.getD 11 0
    if position > 100 ∨ currentPosition > 100 then
      .error "Invalid motor position values"
    else
      let directionState : MotorDirectionT :=
        if direction = 1 then .up else if direction = 2 then .down else .stopped
      if protection > 4 then .error "Invalid motor protection state"
      else
        .ok ⟨power = 255, directionState, currentPosition, position, protection,
          protection = 1, timeToFinish, payload.getD 12 0, payload.getD 13 0⟩

inductive MotorProtectionT where
  | notDefined
  | onControlled
  | onNotControlled
  | onOverruled
  | off
  | unknown
deriving DecidableEq, Repr

/-- `parseMotorProtection` (the standalone alternate parser module):
maps the five enumerated protection bytes and any other byte to
`unknown` — a successful decode. -/
def parseMotorProtection (protection : ℕ) : MotorProtectionT :=
  match protection with
  | 0 => .notDefined
  | 1 => .onControlled
  | 2 => .onNotControlled
  | 3 => .onOverruled
  | 4 => .off
  | _ => .unknown

/-- Whether an `Except` result is a successful decode. -/
def exceptIsOk {ε α : Type} : Except ε α → Bool
  | .ok _ => true
  | .error _ => false

/-- C8 (amended): the active motor decoder fails whenever the target or
current position byte exceeds 100; maps direction byte 1 to up, 2 to
down, anything else to stopped; and fails with a decode error — not a
successful "unknown" — on a protection byte outside 0–4.  The standalone
`parseMotorProtection` helper of the alternate parser module is the one
that maps such bytes to `unknown`. -/
theorem parseMotorResponse_behaviour (payload : List ℕ) (hlen : 14 ≤ payload.length) :
    ((100 < payload.getD 8 0 ∨ 100 < payload.getD 9 0) →
        exceptIsOk (parseMotorResponse payload) = false)
  ∧ (payload.getD 8 0 ≤ 100 → payload.getD 9 0 ≤ 100 → 4 < payload.getD 7 0 →
        exceptIsOk (parseMotorResponse payload) = false)
  ∧ (∀ st, parseMotorResponse payload = .ok st →
        st.direction = (if payload.getD 5 0 = 1 then .up
          else if payload.getD 5 0 = 2 then .down else .stopped))
  ∧ (∀ b, 4 < b → parseMotorProtection b = .unknown) := by
  have hnotshort : ¬ (payload.length < 14) := by omega
  refine ⟨?_, ?_, ?_, ?_⟩
  · intro hpos
    simp only [parseMotorResponse, if_neg hnotshort, if_pos hpos]
    rfl
  · intro h8 h9 h7
    have hnp : ¬ (100 < payload.getD 8 0 ∨ 100 < payload.getD 9 0) := by omega
    simp only [parseMotorResponse, if_neg hnotshort, if_neg hnp, if_pos h7]
    rfl
  · intro st hst
    simp only [parseMotorResponse, if_neg hnotshort] at hst
    by_cases hp : 100 < payload.getD 8 0 ∨ 100 < payload.getD 9 0
    · rw [if_pos hp] at hst
      exact absurd hst (by simp)
    · rw [if_neg hp] at hst
      by_cases h7 : 4 < payload.getD 7 0
      · rw [if_pos h7] at hst
        exact absurd hst (by simp)
      · rw [if_neg h7] at hst
        have hx := Except.ok.inj hst
        rw [← hx]
  · intro b hb
    match b, hb with
    | n + 5, _ => rfl

/-- C8 counterexample: a 14-byte motor payload with in-range positions
and protection byte 5 (outside the enumeration) is rejected by the
active decoder with a decode failure — not mapped to a successful
"unknown" protection state. -/
theorem parseMotorResponse_protection_counterexample :
    parseMotorResponse [1, 6, 0, 1, 0, 1, 255, 5, 50, 50, 0, 0, 0, 0]
        = .error "Invalid motor protection state"
  ∧ parseMotorProtection 5 = .unknown := by
  constructor
  · rfl
  · rfl

/-- Witness for C8 (amended): a payload with target position 101 is
rejected, and `parseMotorProtection 9` decodes to `unknown`. -/
theorem parseMotorResponse_behaviour_witness :
    exceptIsOk (parseMotorResponse [0, 0, 0, 0, 0, 1, 255, 0, 101, 50, 0, 0, 0, 0]) = false
  ∧ parseMotorProtection 9 = MotorProtectionT.unknown :=
  ⟨(parseMotorResponse_behaviour [0, 0, 0, 0, 0, 1, 255, 0, 101, 50, 0, 0, 0, 0]
      (by decide)).1 (by decide),
   (parseMotorResponse_behaviour [0, 0, 0, 0, 0, 1, 255, 0, 101, 50, 0, 0, 0, 0]
      (by decide)).2.2.2 9 (by decide)⟩

/-! ## Temperature sensor decoder (`parseTemperatureSensor`,
src/lib/response/sensor module) -/

/-- `parseTemperatureSensor`: reads the big-endian raw value from payload
bytes 0–1; raw ≥ 0x3F00 is a sensor-error decode failure; otherwise the
temperature is `raw/10 - 273`.  The source computes this in JS doubles
and re-rounds with `toFixed(1)`; since the exact value is itself a
multiple of 1/10 and the double error is far below the 0.05 rounding
margin, the result is the exact rational, which the embedding returns
directly. -/
def parseTemperatureSensor (payload : List ℕ) : Except String ℚ :=
  let rawValue := (payload.getD 0 0) <<< 8 ||| payload.getD 1 0
  if 0x3f00 ≤ rawValue then .error "Temperature sensor error detected"
  else .ok ((rawValue : ℚ) / 10 - 273)

/-- C9: for a payload whose first two bytes encode the raw value `r`
big-endian, decoding fails for every `r ≥ 0x3F00` and returns exactly
`r/10 − 273` (already at one decimal) for every `r < 0x3F00`; in
particular raw 2731 = 0x0AAB gives 0.1 °C. -/
theorem parseTemperatureSensor_behaviour (b0 b1 : ℕ) (rest : List ℕ) :
    (0x3f00 ≤ b0 <<< 8 ||| b1 →
        exceptIsOk (parseTemperatureSensor (b0 :: b1 :: rest)) = false)
  ∧ ((b0 <<< 8 ||| b1) < 0x3f00 →
        parseTemperatureSensor (b0 :: b1 :: rest)
          = .ok (((b0 <<< 8 ||| b1 : ℕ) : ℚ) / 10 - 273))
  ∧ parseTemperatureSensor [10, 171] = .ok (1 / 10) := by
  refine ⟨?_, ?_, ?_⟩
  · intro hr
    simp only [parseTemperatureSensor, List.getD_cons_zero, List.getD_cons_succ, if_pos hr]
    rfl
  · intro hr
    simp only [parseTemperatureSensor, List.getD_cons_zero, List.getD_cons_succ,
      if_neg (by omega : ¬ (0x3f00 ≤ b0 <<< 8 ||| b1))]
  · simp only [parseTemperatureSensor, List.getD_cons_zero, List.getD_cons_succ]
    rw [show (10 : ℕ) <<< 8 ||| 171 = 2731 from by decide]
    rw [if_neg (by omega : ¬ ((0x3f00 : ℕ) ≤ 2731))]
    norm_num

/-- Witness for C9: the sensor-error sentinel 0x3F00 fails, and
raw 2731 decodes to 0.1 °C. -/
theorem parseTemperatureSensor_behaviour_witness :
    exceptIsOk (parseTemperatureSensor [63, 0]) = false
  ∧ parseTemperatureSensor [10, 171] = .ok (1 / 10) :=
  ⟨(parseTemperatureSensor_behaviour 63 0 []).1 (by decide),
   (parseTemperatureSensor_behaviour 63 0 []).2.2⟩

/-! ## Parameter validation
(`validateRange`, src/lib/validation/index.ts 8–12;
`queryRelay` / `setRelay`, src/index.ts 385–424)

Caller-supplied numbers are modelled as `ℤ` where validation runs
(`Number.isInteger` is vacuous on ℤ); after validation passes, values
known non-negative are converted with `toNat` to feed the byte-level
builder.  `setRelay` takes `ℕ` directly: the counterexample value `0` is
a perfectly representable byte, and `buildCommand` wraps bytes anyway. -/

/-- `validateRange` (src/lib/validation/index.ts): throws a `RangeError`
when the value is below `lo` or above `hi`. -/
def validateRange (value lo hi : ℤ) (paramName : String) : Except String Unit :=
  if value < lo ∨ value > hi then .error (paramName ++ " out of range")
  else .ok ()

/-- `TeletaskClient.queryRelay`, up to and including the frame it hands
to `waitForGet`/`sendCommand`: validates the central unit into `[1, 10]`
and the relay number into `[0, 0xffff]` before building
`GET [centralUnit, RELAY, relay >> 8 & 0xff, relay & 0xff]`. -/
def queryRelayRequest (centralUnit relay : ℤ) : Except String (List ℕ) :=
  match validateRange centralUnit 1 10 "Central unit" with
  | .error e => .error e
  | .ok _ =>
    match validateRange relay 0 0xffff "Relay number" with
    | .error e => .error e
    | .ok _ =>
      .ok (buildCommand 6
        [centralUnit.toNat, 1, relay.toNat >>> 8 &&& 255, relay.toNat &&& 255])

/-- `TeletaskClient.setRelay`: builds and sends
`SET [centralUnit, RELAY, relay >> 8 & 0xff, relay & 0xff, 0xff | 0x00]`
with no validation whatsoever — there is no error path. -/
def setRelayRequest (centralUnit relay : ℕ) (state : Bool) : List ℕ :=
  buildCommand 7
    [centralUnit, 1, relay >>> 8 &&& 255, relay &&& 255, if state then 255 else 0]

/-- C6 counterexample: `setRelay` with central unit 0 — outside the
declared domain `[1, 10]` — is not rejected: a complete 9-byte SET frame
is built and sent on the wire. -/
theorem setRelayRequest_no_validation_counterexample :
    ((0 : ℤ) < 1)
  ∧ setRelayRequest 0 5 true = [2, 8, 7, 0, 1, 0, 5, 255, 22]
  ∧ (setRelayRequest 0 5 true).length = 9 := by
  refine ⟨by decide, ?_, ?_⟩ <;> rfl

/-- C6 (amended): the query operations (shown for the cited
`queryRelay`) reject an out-of-domain central unit or item number before
any frame is built, but `setRelay` performs no validation: it produces a
full frame for every input. -/
theorem queryRelayRequest_validation (centralUnit relay : ℤ)
    (h : centralUnit < 1 ∨ 10 < centralUnit ∨ relay < 0 ∨ 65535 < relay) :
    exceptIsOk (queryRelayRequest centralUnit relay) = false
  ∧ ∀ (cu n : ℕ) (st : Bool), (setRelayRequest cu n st).length = 9 := by
  constructor
  · unfold queryRelayRequest validateRange
    by_cases h1 : centralUnit < 1 ∨ centralUnit > 10
    · rw [if_pos h1]
      rfl
    · rw [if_neg h1]
      have h2 : relay < 0 ∨ relay > 65535 := by omega
      rw [if_pos h2]
      rfl
  · intro cu n st
    simp only [setRelayRequest, buildCommand, List.length_append, List.length_cons,
      List.length_map]
    rfl

/-- Witness for C6 (amended): central unit 0 is rejected by `queryRelay`
while `setRelay` still emits its 9 bytes. -/
theorem queryRelayRequest_validation_witness :
    exceptIsOk (queryRelayRequest 0 5) = false
  ∧ (setRelayRequest 0 5 true).length = 9 :=
  ⟨(queryRelayRequest_validation 0 5 (by decide)).1,
   (queryRelayRequest_validation 0 5 (by decide)).2 0 5 true⟩

end Teletask
